import Mathlib

/-!
Shallow embedding of the market-data layer of the mobile trading platform
(`src/contexts/WebSocketContext.tsx`, together with the settings screen's
asset-type handler).  JavaScript numbers are modelled as exact rationals;
`Math.random()` is modelled as an explicit stream `ℕ → ℚ` of draws indexed
by call order (the "seed"); `Date.now()` is an explicit clock argument.
`Array.prototype.sort` with a comparator is a stable sort by the comparator's
order; it is modelled by `List.insertionSort` (a stable sort) on the
corresponding relation.  `x.toFixed(2)` followed by `parseFloat` rounds to
the nearest multiple of 1/100 (ties away from zero on the positive values
that occur here), modelled by `round2`.
-/

/-- Asset classes: `type AssetType = 'crypto' | 'stock'`. -/
inductive AssetType
  | crypto
  | stock
deriving DecidableEq, Repr

/-- Data providers: `type DataProvider = 'binance' | 'alpaca' | 'polygon' | 'demo'`. -/
inductive DataProvider
  | binance
  | alpaca
  | polygon
  | demo
deriving DecidableEq, Repr

/-- `interface OrderBookData`: bid and ask levels as (price, size) pairs plus
`lastUpdateId`. -/
structure OrderBookData where
  bids : List (ℚ × ℚ)
  asks : List (ℚ × ℚ)
  lastUpdateId : ℕ
deriving DecidableEq, Repr

/-- `interface Trade`. -/
structure Trade where
  id : String
  price : ℚ
  amount : ℚ
  time : ℕ
  isBuyerMaker : Bool
deriving DecidableEq, Repr

/-- An incoming stream message (`message.data` in `ws.current.onmessage`):
the fields read by `processOrderBookUpdate` (`e`, `b`, and the ask-side
field `a`) and by `processTrade` (`e`, `t`, `p`, `q`, `T`, `m`).  Numeric
strings are modelled as the exact rationals they denote. -/
structure Msg where
  e : String
  b : List (ℚ × ℚ)
  a : List (ℚ × ℚ)
  t : ℕ
  p : ℚ
  q : ℚ
  T : ℕ
  m : Bool
deriving DecidableEq, Repr

/-- The REST depth snapshot fetched in `connectBinance`'s `onopen` handler,
with its numeric strings already read as exact rationals. -/
structure DepthSnapshot where
  bids : List (ℚ × ℚ)
  asks : List (ℚ × ℚ)
  lastUpdateId : ℕ
deriving DecidableEq, Repr

/-- `parseFloat(x.toFixed(2))`: round to the nearest cent. -/
def round2 (x : ℚ) : ℚ := ((round (x * 100) : ℤ) : ℚ) / 100

/-- `generateDemoOrderBook` (WebSocketContext.tsx lines 57-74): twenty bid
levels below and twenty ask levels above `basePrice`, spaced by
`spread = basePrice * 0.0001`, with random sizes.  The loop body draws one
random size for the bid level and then one for the ask level, so iteration
`i` consumes draws `2*i` and `2*i+1` of the stream.  `lastUpdateId` is
`Date.now()`, the clock argument. -/
def generateDemoOrderBook (basePrice : ℚ) (rand : ℕ → ℚ) (now : ℕ) : OrderBookData :=
  let spread := basePrice * (1 / 10000)
  { bids := (List.range 20).map fun (i : ℕ) =>
      (round2 (basePrice - spread - (i : ℚ) * spread), round2 (rand (2 * i) * 1000))
    asks := (List.range 20).map fun (i : ℕ) =>
      (round2 (basePrice + spread + (i : ℚ) * spread), round2 (rand (2 * i + 1) * 1000))
    lastUpdateId := now }

/-- `generateDemoTrade` (lines 76-85).  The draws consumed are: price (0),
amount (1), taker side (2); `time` is `Date.now()`, the clock argument. -/
def generateDemoTrade (basePrice : ℚ) (rand : ℕ → ℚ) (now : ℕ) (id : ℕ) : Trade :=
  let variance := basePrice * (1 / 1000)
  { id := "trade-" ++ toString id
    price := round2 (basePrice + (rand 0 - 1 / 2) * variance)
    amount := round2 (rand 1 * 100)
    time := now
    isBuyerMaker := decide ((1 : ℚ) / 2 < rand 2) }

/-- `DEFAULT_SYMBOLS` (lines 107-110). -/
def DEFAULT_SYMBOLS : AssetType → String
  | .crypto => "BTCUSDT"
  | .stock => "AAPL"

/-- `DEMO_PRICES` (lines 113-122). -/
def DEMO_PRICES (s : String) : Option ℚ :=
  if s = "BTCUSDT" then some 45000
  else if s = "ETHUSDT" then some 2500
  else if s = "AAPL" then some 175
  else if s = "GOOGL" then some 140
  else if s = "TSLA" then some 250
  else if s = "MSFT" then some 380
  else if s = "AMZN" then some 170
  else if s = "NVDA" then some 480
  else none

/-- `DEMO_PRICES[symbol] || 100` (line 207). -/
def demoBasePrice (symbol : String) : ℚ := (DEMO_PRICES symbol).getD 100

/-- One entry of `data.b.forEach(...)` in `processOrderBookUpdate`
(lines 167-181): size 0 filters the price out; otherwise `findIndex` and
in-place replacement, or push at the end when absent. -/
def applyBidUpdate (bids : List (ℚ × ℚ)) (u : ℚ × ℚ) : List (ℚ × ℚ) :=
  if u.2 = 0 then
    bids.filter fun l => l.1 ≠ u.1
  else
    match bids.findIdx? (fun l => l.1 = u.1) with
    | some i => bids.set i u
    | none => bids ++ [u]

/-- The `findIndex`/set-else-push branch of `applyBidUpdate`, written as a
structural recursion: replace the first level carrying this price in place,
or append at the end when no level carries it.  Extensionally equal to the
`findIdx?`-based form (`applyBidUpdate_eq` below). -/
def replaceOrPush (u : ℚ × ℚ) : List (ℚ × ℚ) → List (ℚ × ℚ)
  | [] => [u]
  | l :: ls => if l.1 = u.1 then u :: ls else l :: replaceOrPush u ls

/-- Comparator `(a, b) => b[0] - a[0]` (descending by price), as the order it
sorts by. -/
def bidOrder (x y : ℚ × ℚ) : Prop := y.1 ≤ x.1

/-- Comparator `(a, b) => a[0] - b[0]` (ascending by price), as the order it
sorts by. -/
def askOrder (x y : ℚ × ℚ) : Prop := x.1 ≤ y.1

instance : DecidableRel bidOrder := fun x y => inferInstanceAs (Decidable (y.1 ≤ x.1))

instance : DecidableRel askOrder := fun x y => inferInstanceAs (Decidable (x.1 ≤ y.1))

/-- `processOrderBookUpdate` (lines 162-189).  Guarded on
`provider === 'binance' && data.e === 'depthUpdate'`.  Only the bid updates
`data.b` are applied (the ask side is only the comment
`// Similar for asks...` in the source); then both sides are sorted and
`lastUpdateId` is carried over unchanged from the spread of the old book. -/
def processOrderBookUpdate (provider : DataProvider) (data : Msg)
    (book : OrderBookData) : OrderBookData :=
  if provider = DataProvider.binance ∧ data.e = "depthUpdate" then
    let newBids := data.b.foldl applyBidUpdate book.bids
    { bids := newBids.insertionSort bidOrder
      asks := book.asks.insertionSort askOrder
      lastUpdateId := book.lastUpdateId }
  else book

/-- `[newTrade, ...prevTrades].slice(0, 100)` — the trade-buffer update used
both by `processTrade` (line 201) and by the demo interval (line 231). -/
def appendTrade (t : Trade) (trades : List Trade) : List Trade :=
  (t :: trades).take 100

/-- `processTrade` (lines 191-203), guarded on
`provider === 'binance' && data.e === 'trade'`. -/
def processTrade (provider : DataProvider) (data : Msg)
    (trades : List Trade) : List Trade :=
  if provider = DataProvider.binance ∧ data.e = "trade" then
    appendTrade
      { id := toString data.t
        price := data.p
        amount := data.q
        time := data.T
        isBuyerMaker := data.m } trades
  else trades

/-- Snapshot ingestion in `connectBinance` (lines 258-266): each side is
mapped level-by-level through string parsing (exact on our rationals) with
no reordering, and `lastUpdateId` is taken from the snapshot. -/
def ingestSnapshot (snapshot : DepthSnapshot) : OrderBookData :=
  { bids := snapshot.bids.map fun l => (l.1, l.2)
    asks := snapshot.asks.map fun l => (l.1, l.2)
    lastUpdateId := snapshot.lastUpdateId }

/-- The two kinds of data source `connect` can establish. -/
inductive DataSource
  | demoFeed
  | binanceLive
deriving DecidableEq, Repr

/-- The source selected by the `switch (provider)` in `connect`
(lines 298-327): demo for `demo`; Binance only for `binance` with crypto,
falling back to demo for `binance` with stocks; demo fallback for the
unimplemented `alpaca` and `polygon`. -/
def connectSource (provider : DataProvider) (assetType : AssetType) : DataSource :=
  match provider with
  | .demo => .demoFeed
  | .binance => if assetType = AssetType.crypto then .binanceLive else .demoFeed
  | .alpaca => .demoFeed
  | .polygon => .demoFeed

/-- The selection state relevant to asset-class switching. -/
structure AppState where
  symbol : String
  assetType : AssetType
  provider : DataProvider
deriving DecidableEq, Repr

/-- An asset-class switch: `handleAssetTypeChange` in the settings screen
(`setAssetType(newType); setProvider('demo')`) combined with the provider's
effect `setSymbol(DEFAULT_SYMBOLS[assetType])` (WebSocketContext.tsx
lines 144-146). -/
def applyAssetTypeChange (s : AppState) (newType : AssetType) : AppState :=
  { s with
    assetType := newType
    provider := DataProvider.demo
    symbol := DEFAULT_SYMBOLS newType }

/-- No duplicate price levels on a side: the prices are pairwise distinct. -/
def nodupKeys (l : List (ℚ × ℚ)) : Prop := (l.map Prod.fst).Nodup

instance (l : List (ℚ × ℚ)) : Decidable (nodupKeys l) :=
  inferInstanceAs (Decidable (l.map Prod.fst).Nodup)

/-- Strictly descending by price (adjacent and non-adjacent pairs alike). -/
def strictDesc (l : List (ℚ × ℚ)) : Prop := l.Pairwise fun x y => y.1 < x.1

/-- Strictly ascending by price. -/
def strictAsc (l : List (ℚ × ℚ)) : Prop := l.Pairwise fun x y => x.1 < y.1

-- Concrete example data used by witnesses and counterexamples.

/-- A small order book with duplicate-free, sorted sides. -/
def exampleBook : OrderBookData :=
  { bids := [(2, 1), (1, 1)], asks := [(3, 1), (4, 1)], lastUpdateId := 7 }

/-- A depth-update message carrying one bid change. -/
def exampleDepthMsg : Msg :=
  { e := "depthUpdate", b := [(5/2, 2)], a := [], t := 0, p := 0, q := 0, T := 0, m := false }

/-- A book holding the single ask level (101, 5). -/
def askBook : OrderBookData :=
  { bids := [(100, 1)], asks := [(101, 5)], lastUpdateId := 1 }

/-- A depth update whose ask side sets the size at price 101 to 0. -/
def askZeroMsg : Msg :=
  { e := "depthUpdate", b := [], a := [(101, 0)], t := 0, p := 0, q := 0, T := 0, m := false }

/-- A snapshot whose bid side is not sorted descending. -/
def unsortedSnapshot : DepthSnapshot :=
  { bids := [(1, 1), (2, 1)], asks := [(3, 1)], lastUpdateId := 3 }

/-- A book whose ask side carries a duplicated price level. -/
def dupAskBook : OrderBookData :=
  { bids := [(2, 1)], asks := [(3, 1), (3, 2)], lastUpdateId := 7 }

-- Helper lemmas about the cent rounding.

theorem round2_mono {x y : ℚ} (h : x ≤ y) : round2 x ≤ round2 y := by
  unfold round2
  have hr : round (x * 100) ≤ round (y * 100) := by
    rw [round_eq, round_eq]
    exact Int.floor_mono (by linarith)
  have hq : ((round (x * 100) : ℤ) : ℚ) ≤ ((round (y * 100) : ℤ) : ℚ) := by exact_mod_cast hr
  linarith

theorem round2_strict {x y : ℚ} (h : x + 1 / 100 ≤ y) : round2 x < round2 y := by
  unfold round2
  have hr : round (x * 100) + 1 ≤ round (y * 100) := by
    have h1 : round (x * 100) + 1 = round (x * 100 + 1) := (round_add_one _).symm
    rw [h1, round_eq, round_eq]
    exact Int.floor_mono (by linarith)
  have hq : ((round (x * 100) : ℤ) : ℚ) + 1 ≤ ((round (y * 100) : ℤ) : ℚ) := by exact_mod_cast hr
  linarith

/-- C3: every append to the trade buffer keeps at most 100 trades, puts the
new trade at the head, and keeps the first (most recent) 99 old trades in
their previous order, evicting the rest from the tail. -/
theorem c3_trades_capped (t : Trade) (trades : List Trade) :
    (appendTrade t trades).length ≤ 100 ∧ appendTrade t trades = t :: trades.take 99 := by
  constructor
  · simp only [appendTrade, List.length_take]
    omega
  · rfl

/-- C4: an asset-class switch always resets the provider to demo and the
symbol to the target class's default, which is BTCUSDT for crypto and AAPL
for stocks. -/
theorem c4_asset_switch_resets (s : AppState) (newType : AssetType) :
    (applyAssetTypeChange s newType).provider = DataProvider.demo
    ∧ (applyAssetTypeChange s newType).symbol = DEFAULT_SYMBOLS newType
    ∧ DEFAULT_SYMBOLS AssetType.crypto = "BTCUSDT"
    ∧ DEFAULT_SYMBOLS AssetType.stock = "AAPL" :=
  ⟨rfl, rfl, rfl, rfl⟩

/-- C6: every unsupported provider selection (binance with stocks, or the
unimplemented alpaca and polygon providers) makes `connect` establish the
demo data source instead of failing. -/
theorem c6_fallback_demo (p : DataProvider) (a : AssetType)
    (h : (p = DataProvider.binance ∧ a = AssetType.stock)
      ∨ p = DataProvider.alpaca ∨ p = DataProvider.polygon) :
    connectSource p a = DataSource.demoFeed := by
  rcases h with ⟨hp, ha⟩ | hp | hp
  · subst hp; subst ha; rfl
  · subst hp; rfl
  · subst hp; rfl

theorem c6_fallback_demo_witness :
    ((DataProvider.binance = DataProvider.binance ∧ AssetType.stock = AssetType.stock)
      ∨ DataProvider.binance = DataProvider.alpaca ∨ DataProvider.binance = DataProvider.polygon)
    ∧ connectSource DataProvider.binance AssetType.stock = DataSource.demoFeed :=
  ⟨Or.inl ⟨rfl, rfl⟩, c6_fallback_demo DataProvider.binance AssetType.stock (Or.inl ⟨rfl, rfl⟩)⟩

/-- C10: a message processed under a provider other than binance, or whose
event type does not match the handler (depthUpdate for the book handler,
trade for the trade handler), leaves the order book respectively the trade
list unchanged. -/
theorem c10_frame (p : DataProvider) (msg : Msg) (book : OrderBookData) (trades : List Trade) :
    (p ≠ DataProvider.binance ∨ msg.e ≠ "depthUpdate" → processOrderBookUpdate p msg book = book)
    ∧ (p ≠ DataProvider.binance ∨ msg.e ≠ "trade" → processTrade p msg trades = trades) := by
  constructor
  · intro h
    rw [processOrderBookUpdate, if_neg]
    rintro ⟨h1, h2⟩
    rcases h with h | h
    · exact h h1
    · exact h h2
  · intro h
    rw [processTrade, if_neg]
    rintro ⟨h1, h2⟩
    rcases h with h | h
    · exact h h1
    · exact h h2

theorem c10_frame_witness :
    (DataProvider.demo ≠ DataProvider.binance ∨ exampleDepthMsg.e ≠ "depthUpdate")
    ∧ processOrderBookUpdate DataProvider.demo exampleDepthMsg exampleBook = exampleBook
    ∧ processTrade DataProvider.demo exampleDepthMsg [] = [] :=
  ⟨Or.inl (by decide),
    (c10_frame DataProvider.demo exampleDepthMsg exampleBook []).1 (Or.inl (by decide)),
    (c10_frame DataProvider.demo exampleDepthMsg exampleBook []).2 (Or.inl (by decide))⟩

/-- C5 counterexample: the same symbol and the same random stream do not by
themselves determine the demo snapshot, because the generator also reads the
clock (`Date.now()`) into `lastUpdateId`: two runs at clock readings 1 and 2
differ. -/
theorem c5_counterexample :
    generateDemoOrderBook (demoBasePrice "BTCUSDT") (fun _ => 0) 1
      ≠ generateDemoOrderBook (demoBasePrice "BTCUSDT") (fun _ => 0) 2 := by
  intro h
  have h1 := congrArg OrderBookData.lastUpdateId h
  simp only [generateDemoOrderBook] at h1
  omega

/-- C5 (amended): the demo generators are deterministic in the symbol, the
random stream and the clock reading: runs whose streams agree on the draws
actually consumed (the first 40) and whose clocks agree produce identical
order books and identical trades. -/
theorem c5_determinism_amended (sym : String) (r₁ r₂ : ℕ → ℚ) (t cnt : ℕ)
    (hr : ∀ i < 40, r₁ i = r₂ i) :
    generateDemoOrderBook (demoBasePrice sym) r₁ t = generateDemoOrderBook (demoBasePrice sym) r₂ t
    ∧ generateDemoTrade (demoBasePrice sym) r₁ t cnt
        = generateDemoTrade (demoBasePrice sym) r₂ t cnt := by
  constructor
  · simp only [generateDemoOrderBook, OrderBookData.mk.injEq]
    refine ⟨List.map_congr_left ?_, List.map_congr_left ?_, trivial⟩
    · intro i hi
      have hi20 : i < 20 := List.mem_range.mp hi
      rw [hr (2 * i) (by omega)]
    · intro i hi
      have hi20 : i < 20 := List.mem_range.mp hi
      rw [hr (2 * i + 1) (by omega)]
  · simp only [generateDemoTrade, Trade.mk.injEq]
    rw [hr 0 (by omega), hr 1 (by omega), hr 2 (by omega)]
    simp

theorem c5_determinism_amended_witness :
    (∀ i < 40, (fun _ : ℕ => (0 : ℚ)) i = (fun j : ℕ => if j < 40 then (0 : ℚ) else 7) i)
    ∧ generateDemoOrderBook (demoBasePrice "BTCUSDT") (fun _ => 0) 5
        = generateDemoOrderBook (demoBasePrice "BTCUSDT") (fun j => if j < 40 then 0 else 7) 5
    ∧ generateDemoTrade (demoBasePrice "BTCUSDT") (fun _ => 0) 5 3
        = generateDemoTrade (demoBasePrice "BTCUSDT") (fun j => if j < 40 then 0 else 7) 5 3 :=
  ⟨fun i hi => by simp [hi],
    (c5_determinism_amended "BTCUSDT" (fun _ => 0) (fun j => if j < 40 then 0 else 7) 5 3
      (fun i hi => by simp [hi])).1,
    (c5_determinism_amended "BTCUSDT" (fun _ => 0) (fun j => if j < 40 then 0 else 7) 5 3
      (fun i hi => by simp [hi])).2⟩

/-- C7 counterexample: an incremental depth update does not strictly
increase `lastUpdateId` — it copies it over unchanged. -/
theorem c7_counterexample :
    ¬ exampleBook.lastUpdateId
      < (processOrderBookUpdate DataProvider.binance exampleDepthMsg exampleBook).lastUpdateId := by
  have h : (processOrderBookUpdate DataProvider.binance exampleDepthMsg exampleBook).lastUpdateId
      = exampleBook.lastUpdateId := by
    rw [processOrderBookUpdate, if_pos ⟨rfl, rfl⟩]
  rw [h]
  omega

/-- C7 (amended): the update identifier is preserved unchanged by every
incremental depth update, is the current clock reading on a demo tick (hence
strictly increases whenever the clock has passed the previous identifier),
and is set to the fetched snapshot's own identifier on snapshot load, with
no comparison against the previous book. -/
theorem c7_lastUpdateId_amended (p : DataProvider) (msg : Msg) (book : OrderBookData)
    (c : ℚ) (r : ℕ → ℚ) (t : ℕ) (snap : DepthSnapshot)
    (ht : book.lastUpdateId < t) :
    (processOrderBookUpdate p msg book).lastUpdateId = book.lastUpdateId
    ∧ book.lastUpdateId < (generateDemoOrderBook c r t).lastUpdateId
    ∧ (ingestSnapshot snap).lastUpdateId = snap.lastUpdateId := by
  refine ⟨?_, ?_, rfl⟩
  · rw [processOrderBookUpdate]
    split
    · rfl
    · rfl
  · simpa only [generateDemoOrderBook] using ht

theorem c7_lastUpdateId_amended_witness :
    exampleBook.lastUpdateId < 9
    ∧ ((processOrderBookUpdate DataProvider.binance exampleDepthMsg exampleBook).lastUpdateId
        = exampleBook.lastUpdateId
      ∧ exampleBook.lastUpdateId < (generateDemoOrderBook 45000 (fun _ => 0) 9).lastUpdateId
      ∧ (ingestSnapshot unsortedSnapshot).lastUpdateId = unsortedSnapshot.lastUpdateId) :=
  ⟨by decide,
    c7_lastUpdateId_amended DataProvider.binance exampleDepthMsg exampleBook
      45000 (fun _ => 0) 9 unsortedSnapshot (by decide)⟩

/-- C1: at the concrete failing input — a book holding the ask level
(101, 5) and a depth update whose ask side carries (101, 0) — the updated
book still contains the price-101 ask level: the handler never reads the
ask-side field of the message. -/
theorem c1_ask_size_zero_kept :
    (processOrderBookUpdate DataProvider.binance askZeroMsg askBook).asks = [(101, 5)] := by
  rw [processOrderBookUpdate, if_pos ⟨rfl, rfl⟩]
  show askBook.asks.insertionSort askOrder = [(101, 5)]
  rfl

-- Sortedness machinery for the depth-update merge and the demo generator.

theorem strictDesc_of_sorted_nodup {l : List (ℚ × ℚ)} (hs : l.Pairwise bidOrder)
    (hn : nodupKeys l) : strictDesc l := by
  have hne : l.Pairwise fun x y : ℚ × ℚ => x.1 ≠ y.1 := by
    rw [nodupKeys] at hn
    exact List.pairwise_map.mp hn
  exact (hs.and hne).imp fun h => lt_of_le_of_ne h.1 fun e => h.2 e.symm

theorem strictAsc_of_sorted_nodup {l : List (ℚ × ℚ)} (hs : l.Pairwise askOrder)
    (hn : nodupKeys l) : strictAsc l := by
  have hne : l.Pairwise fun x y : ℚ × ℚ => x.1 ≠ y.1 := by
    rw [nodupKeys] at hn
    exact List.pairwise_map.mp hn
  exact (hs.and hne).imp fun h => lt_of_le_of_ne h.1 h.2

theorem applyBidUpdate_eq (bids : List (ℚ × ℚ)) (u : ℚ × ℚ) :
    applyBidUpdate bids u =
      if u.2 = 0 then bids.filter (fun l => l.1 ≠ u.1) else replaceOrPush u bids := by
  rw [applyBidUpdate]
  by_cases h0 : u.2 = 0
  · simp [h0]
  · simp only [h0, if_false]
    induction bids with
    | nil => rfl
    | cons a as ih =>
      rw [List.findIdx?_cons]
      by_cases ha : a.1 = u.1
      · simp [replaceOrPush, ha]
      · rw [if_neg (by simpa using ha), List.findIdx?_succ]
        cases hf : as.findIdx? (fun l => decide (l.1 = u.1)) with
        | none =>
          rw [hf] at ih
          simp only [Option.map_none', List.cons_append, replaceOrPush, if_neg ha,
            List.cons.injEq, true_and]
          simpa using ih
        | some i =>
          rw [hf] at ih
          simp only [Option.map_some', List.set_cons_succ, replaceOrPush, if_neg ha,
            List.cons.injEq, true_and]
          simpa using ih

theorem keys_replaceOrPush_subset (u : ℚ × ℚ) (l : List (ℚ × ℚ)) :
    ∀ x ∈ (replaceOrPush u l).map Prod.fst, x ∈ l.map Prod.fst ∨ x = u.1 := by
  induction l with
  | nil =>
    intro x hx
    simp only [replaceOrPush, List.map_cons, List.map_nil, List.mem_cons,
      List.not_mem_nil, or_false] at hx
    exact Or.inr hx
  | cons a as ih =>
    intro x hx
    by_cases ha : a.1 = u.1
    · simp only [replaceOrPush, if_pos ha, List.map_cons, List.mem_cons] at hx
      rcases hx with hx | hx
      · exact Or.inr hx
      · exact Or.inl (by simp only [List.map_cons, List.mem_cons]; exact Or.inr hx)
    · simp only [replaceOrPush, if_neg ha, List.map_cons, List.mem_cons] at hx
      rcases hx with hx | hx
      · exact Or.inl (by simp [hx])
      · rcases ih x hx with h | h
        · exact Or.inl (by simp only [List.map_cons, List.mem_cons]; exact Or.inr h)
        · exact Or.inr h

theorem nodupKeys_replaceOrPush (u : ℚ × ℚ) :
    ∀ l : List (ℚ × ℚ), nodupKeys l → nodupKeys (replaceOrPush u l) := by
  intro l
  induction l with
  | nil =>
    intro _
    simp [replaceOrPush, nodupKeys]
  | cons a as ih =>
    intro h
    simp only [nodupKeys, List.map_cons, List.nodup_cons] at h
    by_cases ha : a.1 = u.1
    · simp only [replaceOrPush, if_pos ha, nodupKeys, List.map_cons, List.nodup_cons]
      exact ⟨ha ▸ h.1, h.2⟩
    · simp only [replaceOrPush, if_neg ha, nodupKeys, List.map_cons, List.nodup_cons]
      refine ⟨?_, ih h.2⟩
      intro hmem
      rcases keys_replaceOrPush_subset u as a.1 hmem with hm | hm
      · exact h.1 hm
      · exact ha hm

theorem nodupKeys_filter (p : ℚ × ℚ → Bool) {l : List (ℚ × ℚ)} (h : nodupKeys l) :
    nodupKeys (l.filter p) :=
  List.Nodup.sublist ((List.filter_sublist l).map Prod.fst) h

theorem nodupKeys_applyBidUpdate (u : ℚ × ℚ) {l : List (ℚ × ℚ)} (h : nodupKeys l) :
    nodupKeys (applyBidUpdate l u) := by
  rw [applyBidUpdate_eq]
  split
  · exact nodupKeys_filter _ h
  · exact nodupKeys_replaceOrPush u l h

theorem nodupKeys_foldl (us : List (ℚ × ℚ)) :
    ∀ {l : List (ℚ × ℚ)}, nodupKeys l → nodupKeys (us.foldl applyBidUpdate l) := by
  induction us with
  | nil =>
    intro l h
    exact h
  | cons u us ih =>
    intro l h
    exact ih (nodupKeys_applyBidUpdate u h)

theorem nodupKeys_insertionSort (r : ℚ × ℚ → ℚ × ℚ → Prop) [DecidableRel r]
    {l : List (ℚ × ℚ)} (h : nodupKeys l) : nodupKeys (l.insertionSort r) := by
  rw [nodupKeys] at h ⊢
  exact (((List.perm_insertionSort r l).map Prod.fst).nodup_iff).mpr h

theorem processOrderBookUpdate_strict (msg : Msg) (book : OrderBookData)
    (he : msg.e = "depthUpdate") (hb : nodupKeys book.bids) (ha : nodupKeys book.asks) :
    strictDesc (processOrderBookUpdate DataProvider.binance msg book).bids
    ∧ strictAsc (processOrderBookUpdate DataProvider.binance msg book).asks := by
  rw [processOrderBookUpdate, if_pos ⟨rfl, he⟩]
  constructor
  · show strictDesc ((msg.b.foldl applyBidUpdate book.bids).insertionSort bidOrder)
    apply strictDesc_of_sorted_nodup
    · haveI h1 : IsTotal (ℚ × ℚ) bidOrder := ⟨fun a b => le_total b.1 a.1⟩
      haveI h2 : IsTrans (ℚ × ℚ) bidOrder := ⟨fun a b c hab hbc => le_trans hbc hab⟩
      exact List.sorted_insertionSort bidOrder _
    · exact nodupKeys_insertionSort bidOrder (nodupKeys_foldl msg.b hb)
  · show strictAsc (book.asks.insertionSort askOrder)
    apply strictAsc_of_sorted_nodup
    · haveI h1 : IsTotal (ℚ × ℚ) askOrder := ⟨fun a b => le_total a.1 b.1⟩
      haveI h2 : IsTrans (ℚ × ℚ) askOrder := ⟨fun a b c hab hbc => le_trans hab hbc⟩
      exact List.sorted_insertionSort askOrder _
    · exact nodupKeys_insertionSort askOrder ha

theorem demo_bids_strictDesc {c : ℚ} (r : ℕ → ℚ) (t : ℕ) (hc : 100 ≤ c) :
    strictDesc (generateDemoOrderBook c r t).bids := by
  rw [strictDesc]
  simp only [generateDemoOrderBook, List.pairwise_map]
  refine (List.pairwise_lt_range 20).imp ?_
  intro i j hij
  apply round2_strict
  have hij' : (i : ℚ) + 1 ≤ (j : ℚ) := by exact_mod_cast hij
  have hs : 1 / 100 ≤ c * (1 / 10000) := by linarith
  have hmul : 1 * (c * (1 / 10000)) ≤ ((j : ℚ) - i) * (c * (1 / 10000)) :=
    mul_le_mul_of_nonneg_right (by linarith) (by linarith)
  nlinarith

theorem demo_asks_strictAsc {c : ℚ} (r : ℕ → ℚ) (t : ℕ) (hc : 100 ≤ c) :
    strictAsc (generateDemoOrderBook c r t).asks := by
  rw [strictAsc]
  simp only [generateDemoOrderBook, List.pairwise_map]
  refine (List.pairwise_lt_range 20).imp ?_
  intro i j hij
  apply round2_strict
  have hij' : (i : ℚ) + 1 ≤ (j : ℚ) := by exact_mod_cast hij
  have hs : 1 / 100 ≤ c * (1 / 10000) := by linarith
  have hmul : 1 * (c * (1 / 10000)) ≤ ((j : ℚ) - i) * (c * (1 / 10000)) :=
    mul_le_mul_of_nonneg_right (by linarith) (by linarith)
  nlinarith

theorem demo_bid_lt_ask {c : ℚ} (r : ℕ → ℚ) (t : ℕ) (hc : 100 ≤ c) :
    ∀ x ∈ (generateDemoOrderBook c r t).bids, ∀ y ∈ (generateDemoOrderBook c r t).asks,
      x.1 < y.1 := by
  intro x hx y hy
  simp only [generateDemoOrderBook, List.mem_map, List.mem_range] at hx hy
  obtain ⟨i, hi, rfl⟩ := hx
  obtain ⟨j, hj, rfl⟩ := hy
  dsimp only
  apply round2_strict
  have hi0 : (0 : ℚ) ≤ (i : ℚ) := Nat.cast_nonneg i
  have hj0 : (0 : ℚ) ≤ (j : ℚ) := Nat.cast_nonneg j
  have hs : 1 / 100 ≤ c * (1 / 10000) := by linarith
  have h1 : 0 ≤ (i : ℚ) * (c * (1 / 10000)) := mul_nonneg hi0 (by linarith)
  have h2 : 0 ≤ (j : ℚ) * (c * (1 / 10000)) := mul_nonneg hj0 (by linarith)
  linarith

/-- C9 counterexample: at base price 1/100 (which is greater than zero) the
cent rounding collapses the spread — the top-of-book bid and ask prices are
both 1/100 — so not every bid price is strictly below every ask price. -/
theorem c9_counterexample :
    (0 : ℚ) < 1 / 100
    ∧ ¬ (∀ x ∈ (generateDemoOrderBook (1 / 100) (fun _ => 1 / 2) 0).bids,
          ∀ y ∈ (generateDemoOrderBook (1 / 100) (fun _ => 1 / 2) 0).asks, x.1 < y.1) := by
  refine ⟨by norm_num, fun h => ?_⟩
  simp only [generateDemoOrderBook] at h
  have h0 : (0 : ℕ) ∈ List.range 20 := List.mem_range.mpr (by omega)
  have hx := h _ (List.mem_map_of_mem _ h0) _ (List.mem_map_of_mem _ h0)
  norm_num [round2, round_eq] at hx

/-- C9 (amended): for every base price at least 100 — as are all the
hard-coded demo prices and the fallback price 100 — the demo book has
exactly 20 bid levels and 20 ask levels and every bid price is strictly
below every ask price. -/
theorem c9_demo_book_amended (c : ℚ) (r : ℕ → ℚ) (t : ℕ) (hc : 100 ≤ c) :
    (generateDemoOrderBook c r t).bids.length = 20
    ∧ (generateDemoOrderBook c r t).asks.length = 20
    ∧ ∀ x ∈ (generateDemoOrderBook c r t).bids, ∀ y ∈ (generateDemoOrderBook c r t).asks,
        x.1 < y.1 :=
  ⟨by simp [generateDemoOrderBook], by simp [generateDemoOrderBook], demo_bid_lt_ask r t hc⟩

theorem c9_demo_book_amended_witness :
    (100 : ℚ) ≤ 45000
    ∧ ((generateDemoOrderBook 45000 (fun _ => 1 / 3) 1).bids.length = 20
      ∧ (generateDemoOrderBook 45000 (fun _ => 1 / 3) 1).asks.length = 20
      ∧ ∀ x ∈ (generateDemoOrderBook 45000 (fun _ => 1 / 3) 1).bids,
          ∀ y ∈ (generateDemoOrderBook 45000 (fun _ => 1 / 3) 1).asks, x.1 < y.1) :=
  ⟨by norm_num, c9_demo_book_amended 45000 (fun _ => 1 / 3) 1 (by norm_num)⟩

/-- C2 counterexample: three concrete failures of the claim as stated.
A demo book generated at base price 1/100 has equal adjacent bid prices
(cent rounding), so its bids are not strictly descending; ingesting an
unsorted snapshot yields unsorted bids, because ingestion copies the fetched
levels without sorting; and an incremental update applied to a book whose
ask side carries a duplicated price keeps the duplicate, so the resulting
asks are not strictly ascending. -/
theorem c2_counterexample :
    ¬ strictDesc (generateDemoOrderBook (1 / 100) (fun _ => 1 / 2) 0).bids
    ∧ ¬ strictDesc (ingestSnapshot unsortedSnapshot).bids
    ∧ ¬ strictAsc (processOrderBookUpdate DataProvider.binance exampleDepthMsg dupAskBook).asks := by
  refine ⟨fun h => ?_, fun h => ?_, fun h => ?_⟩
  · rw [strictDesc] at h
    simp only [generateDemoOrderBook] at h
    have h01 := List.pairwise_iff_getElem.mp h 0 1 (by simp) (by simp) (by omega)
    norm_num [round2, round_eq] at h01
  · norm_num [ingestSnapshot, unsortedSnapshot, strictDesc, List.pairwise_cons] at h
  · rw [processOrderBookUpdate, if_pos ⟨rfl, rfl⟩] at h
    have h' : strictAsc (dupAskBook.asks.insertionSort askOrder) := h
    rw [strictAsc] at h'
    norm_num [dupAskBook, askOrder, List.insertionSort, List.orderedInsert,
      List.pairwise_cons] at h'

/-- C2 (amended): an incremental depth update applied to a book whose sides
are duplicate-free yields strictly descending bids and strictly ascending
asks; demo snapshot generation yields strictly sorted sides for every base
price at least 100 (as all the demo base prices are); live snapshot
ingestion copies the fetched levels verbatim, so its sides are sorted
exactly when the fetched snapshot's sides are. -/
theorem c2_sorted_amended (msg : Msg) (book : OrderBookData) (c : ℚ) (r : ℕ → ℚ) (t : ℕ)
    (snap : DepthSnapshot) (he : msg.e = "depthUpdate")
    (hb : nodupKeys book.bids) (ha : nodupKeys book.asks) (hc : 100 ≤ c) :
    (strictDesc (processOrderBookUpdate DataProvider.binance msg book).bids
      ∧ strictAsc (processOrderBookUpdate DataProvider.binance msg book).asks)
    ∧ (strictDesc (generateDemoOrderBook c r t).bids
      ∧ strictAsc (generateDemoOrderBook c r t).asks)
    ∧ ((ingestSnapshot snap).bids = snap.bids ∧ (ingestSnapshot snap).asks = snap.asks) :=
  ⟨processOrderBookUpdate_strict msg book he hb ha,
    ⟨demo_bids_strictDesc r t hc, demo_asks_strictAsc r t hc⟩,
    by simp [ingestSnapshot], by simp [ingestSnapshot]⟩

theorem c2_sorted_amended_witness :
    exampleDepthMsg.e = "depthUpdate"
    ∧ nodupKeys exampleBook.bids
    ∧ nodupKeys exampleBook.asks
    ∧ (100 : ℚ) ≤ 45000
    ∧ ((strictDesc (processOrderBookUpdate DataProvider.binance exampleDepthMsg exampleBook).bids
        ∧ strictAsc (processOrderBookUpdate DataProvider.binance exampleDepthMsg exampleBook).asks)
      ∧ (strictDesc (generateDemoOrderBook 45000 (fun _ => 1 / 3) 1).bids
        ∧ strictAsc (generateDemoOrderBook 45000 (fun _ => 1 / 3) 1).asks)
      ∧ ((ingestSnapshot unsortedSnapshot).bids = unsortedSnapshot.bids
        ∧ (ingestSnapshot unsortedSnapshot).asks = unsortedSnapshot.asks)) :=
  ⟨rfl, by norm_num [nodupKeys, exampleBook], by norm_num [nodupKeys, exampleBook],
    by norm_num,
    c2_sorted_amended exampleDepthMsg exampleBook 45000 (fun _ => 1 / 3) 1 unsortedSnapshot
      rfl (by norm_num [nodupKeys, exampleBook]) (by norm_num [nodupKeys, exampleBook])
      (by norm_num)⟩
